import Mathlib

/-!
Shallow embedding of `src/easy_scraping/customscraper.py` (a concurrent,
depth-bounded web crawler) and verification of its specification claims.

The external collaborators (HTTP transport via `requests.get`, HTML
extraction via BeautifulSoup) are modelled as pure data: a `Web` is a finite
association list from URL to the fetch/extract outcome for that URL, where
absence of an entry models a `requests.get` exception (network error) and a
present entry carries `r.ok`, the prettified body, the extracted `h1`
headers and the raw `href` values of the page's `<a>` tags.

The thread pool plus futures queue is modelled sequentially: the FIFO queue
of pending tasks is drained front-to-back, and each task execution may
append newly submitted child tasks at the back, exactly as
`MyScraper.scrape` / `MyScraper.__drain_queue` interleave `futures.put`
with `futures.get`.  Each executed task observes the value of the global
`RUNNING` flag at that step, which models cooperative cancellation.
-/

/-- Outcome of `requests.get` plus BeautifulSoup extraction for one URL:
`ok` is `r.ok`, `raw` is `soup.prettify()`, `headers` the stringified `h1`
tags and `links` the raw `href` attributes of the page's anchors. -/
structure Fetched where
  ok : Bool
  raw : String
  headers : List String
  links : List String
deriving DecidableEq, Repr

/-- The reachable web: a finite association list from URL to fetch outcome.
A URL absent from the list models a `requests.get` exception. -/
abbrev Web := List (String × Fetched)

/-- Model of `requests.get` against the modelled web (`none` = raised exception). -/
def requests_get (web : Web) (url : String) : Option Fetched :=
  (web.find? (fun p => p.1 = url)).map (fun p => p.2)

/-- The per-URL entry stored into `self.data`: the dict
`{'raw': soup.prettify(), 'headers': [str(s) for s in soup.find_all('h1')]}`. -/
structure PageResult where
  raw : String
  headers : List String
deriving DecidableEq, Repr

/-- Contents of a `LockingDict`: an association list in insertion order.
The mutex only serializes `__setitem__`; the data itself is a dict. -/
abbrev LockingDict := List (String × PageResult)

/-- Python `url in self.data` (dict key membership). -/
def LockingDict.containsKey (d : LockingDict) (k : String) : Bool :=
  d.any (fun p => p.1 = k)

/-- Model of `LockingDict.__setitem__`: dict assignment — it replaces the
entry when the key is present, otherwise appends a fresh entry. -/
def LockingDict.setItem (d : LockingDict) (k : String) (v : PageResult) : LockingDict :=
  if d.containsKey k then d.map (fun p => if p.1 = k then (k, v) else p)
  else d ++ [(k, v)]

/-- Python `str.startswith`, on the underlying character lists. -/
def startswith (s pre : String) : Bool :=
  pre.data.isPrefixOf s.data

/-- Break a character list at the first occurrence of `sep`: returns the
part before it and the part after it, or `none` when `sep` never occurs. -/
def breakOn (sep : List Char) : List Char → Option (List Char × List Char)
  | [] => none
  | c :: cs =>
    if sep.isPrefixOf (c :: cs) then some ([], (c :: cs).drop sep.length)
    else
      match breakOn sep cs with
      | none => none
      | some (pre, post) => some (c :: pre, post)

/-- Characters before the first `/`. -/
def takeUntilSlash : List Char → List Char
  | [] => []
  | c :: cs => if c = '/' then [] else c :: takeUntilSlash cs

/-- The parts of Python `urllib.parse.urlparse` used at line 117:
`scheme` and `netloc`, for absolute URLs of the shape `scheme://host/path`. -/
structure ParsedURL where
  scheme : String
  netloc : String
deriving DecidableEq, Repr

/-- Model of `urlparse` for absolute `scheme://host/path...` URLs: the
scheme is the text before the first `://`, the netloc the text after it up
to the next `/`. -/
def urlparse (url : String) : ParsedURL :=
  match breakOn "://".data url.data with
  | some (pre, post) => ⟨⟨pre⟩, ⟨takeUntilSlash post⟩⟩
  | none => ⟨"", ""⟩

/-- Lines 116–118 of `MyScraper.__scrape`: a discovered href starting with
`/` is rebuilt as `scheme + "://" + netloc + "/" + href`; any other href is
passed through unchanged. -/
def resolveHref (url href : String) : String :=
  if startswith href "/" then
    let p := urlparse url
    p.scheme ++ "://" ++ p.netloc ++ "/" ++ href
  else href

/-- A unit of crawl work: one URL at one depth (`__scrape`'s arguments). -/
structure CrawlTask where
  url : String
  depth : Nat
deriving DecidableEq, Repr

/-- The `f"{url}-{depth}"` completion marker returned by `__scrape`. -/
def marker (t : CrawlTask) : String :=
  t.url ++ "-" ++ toString t.depth

/-- Everything one execution of `__scrape` produces: the updated `self.data`
contents, the child tasks submitted to the executor (in order), whether
`requests.get` was invoked, and the returned completion marker. -/
structure StepResult where
  data : LockingDict
  submitted : List CrawlTask
  fetched : Bool
  value : String
deriving DecidableEq, Repr

/-- One execution of `MyScraper.__scrape(url, depth)`, with `running` the
value of the global `RUNNING` flag observed at entry and `data` the
contents of `self.data` when line 95 runs. -/
def scrapeStep (web : Web) (maxDepth : Nat) (running : Bool)
    (data : LockingDict) (t : CrawlTask) : StepResult :=
  if running then
    if data.containsKey t.url = false ∧ t.depth < maxDepth then
      match requests_get web t.url with
      | none =>
        { data := data, submitted := [], fetched := true, value := marker t }
      | some r =>
        if r.ok then
          let newData := data.setItem t.url ⟨r.raw, r.headers⟩
          let subs := r.links.map
            (fun href => { url := resolveHref t.url href, depth := t.depth + 1 })
          { data := newData, submitted := subs, fetched := true, value := marker t }
        else
          { data := data, submitted := [], fetched := true, value := marker t }
    else
      { data := data, submitted := [], fetched := false, value := marker t }
  else
    { data := data, submitted := [], fetched := false, value := marker t }

/-- Accumulated observable state of a crawl run: `self.data`, every task
ever put on the futures queue (seeds included), how many `requests.get`
calls were made, and the completion markers printed by `__drain_queue`. -/
structure DrainAcc where
  data : LockingDict
  allTasks : List CrawlTask
  fetchCount : Nat
  markers : List String
deriving DecidableEq, Repr

/-- Model of `MyScraper.__drain_queue`, fuelled: pop the front future, run its task
(observing `RUNNING` via `sig` at the current step index), append its newly
submitted children at the back, repeat until the queue is empty.  `none`
means the fuel ran out (the termination theorem shows enough fuel always
exists). -/
def drainQueue (web : Web) (maxDepth : Nat) (sig : Nat → Bool) :
    Nat → Nat → List CrawlTask → DrainAcc → Option DrainAcc
  | _, _, [], acc => some acc
  | 0, _, _ :: _, _ => none
  | fuel + 1, step, t :: rest, acc =>
    let r := scrapeStep web maxDepth (sig step) acc.data t
    drainQueue web maxDepth sig fuel (step + 1) (rest ++ r.submitted)
      { data := r.data
        allTasks := acc.allTasks ++ r.submitted
        fetchCount := acc.fetchCount + (if r.fetched then 1 else 0)
        markers := acc.markers ++ [r.value] }

/-- The seed futures submitted by `MyScraper.scrape`: each start URL at
depth 0, in order. -/
def seedTasks (seeds : List String) : List CrawlTask :=
  seeds.map (fun u => ⟨u, 0⟩)

/-- Model of `MyScraper.scrape` up to (but not including) the output step: submit
every start URL at depth 0, then drain the futures queue. -/
def scrape (web : Web) (maxDepth : Nat) (sig : Nat → Bool)
    (seeds : List String) (fuel : Nat) : Option DrainAcc :=
  drainQueue web maxDepth sig fuel 0 (seedTasks seeds)
    { data := [], allTasks := seedTasks seeds, fetchCount := 0, markers := [] }

/-- The full `MyScraper.scrape`, output step included: after the drain, the
serialized `self.data` is handed to the configured sink (stdout print or
file write); `writeOk = false` models an `IOError` on that final write,
the only fallible operation left.  The `"fuel"` error is a model artifact
of the fuelled drain, never reached with sufficient fuel. -/
def scrapeOut (web : Web) (maxDepth : Nat) (sig : Nat → Bool)
    (seeds : List String) (fuel : Nat) (writeOk : Bool) :
    Except String LockingDict :=
  match scrape web maxDepth sig seeds fuel with
  | none => .error "fuel"
  | some r => if writeOk then .ok r.data else .error "IOError"

/-- Model of `kill_threads` (the SIGINT handler): sets the global `RUNNING` flag to
`False`, unconditionally. -/
def kill_threads (_running : Bool) : Bool := false

/-- Evolution of the global `RUNNING` flag: it starts `True` and at each
step either stays put or is hit by `kill_threads` (when `kill n` is true).
`runningAt kill n` is its value observed at step `n`. -/
def runningAt (kill : Nat → Bool) : Nat → Bool
  | 0 => true
  | n + 1 => if kill n then kill_threads (runningAt kill n) else runningAt kill n

/-- Bound on the number of links of any page of the modelled web. -/
def linkBound (web : Web) : Nat :=
  web.foldr (fun p acc => max p.2.links.length acc) 0

/-- Weight of one pending task in the termination measure: `B` to the power
of the remaining depth budget. -/
def taskWeight (B maxDepth : Nat) (t : CrawlTask) : Nat :=
  B ^ (maxDepth - t.depth)

/-- Termination measure of the whole pending queue. -/
def queueWeight (B maxDepth : Nat) (q : List CrawlTask) : Nat :=
  (q.map (taskWeight B maxDepth)).sum

/-- Concrete web for scenario A/C-style runs: `https://a.test/` is a page
with one absolute link to `https://b.test/`. -/
def webA : Web :=
  [("https://a.test/", ⟨true, "A", ["<h1>A</h1>"], ["https://b.test/"]⟩)]

/-- Concrete web for scenario C: two seed pages both link to the same third
URL `https://c.test/`. -/
def webC : Web :=
  [("https://a.test/", ⟨true, "A", [], ["https://c.test/"]⟩),
   ("https://b.test/", ⟨true, "B", [], ["https://c.test/"]⟩),
   ("https://c.test/", ⟨true, "C", [], []⟩)]

/-- A `self.data` state that already holds a result for `https://a.test/`. -/
def dataA : LockingDict :=
  [("https://a.test/", ⟨"A", ["<h1>A</h1>"]⟩)]

/-- Expected final state of the `webA` crawl with `maxDepth = 1`:
`a.test/` fetched at depth 0, its child queued at depth 1 and skipped. -/
def accA : DrainAcc :=
  { data := [("https://a.test/", ⟨"A", ["<h1>A</h1>"]⟩)]
    allTasks := [⟨"https://a.test/", 0⟩, ⟨"https://b.test/", 1⟩]
    fetchCount := 1
    markers := ["https://a.test/-0", "https://b.test/-1"] }

/-- Expected final state of the scenario-C crawl of `webC` from the two
seeds: both seeds queue a task for `https://c.test/`, the first fetches it,
the second skips it, and the store holds one entry per URL. -/
def accC : DrainAcc :=
  { data := [("https://a.test/", ⟨"A", []⟩), ("https://b.test/", ⟨"B", []⟩),
             ("https://c.test/", ⟨"C", []⟩)]
    allTasks := [⟨"https://a.test/", 0⟩, ⟨"https://b.test/", 0⟩,
                 ⟨"https://c.test/", 1⟩, ⟨"https://c.test/", 1⟩]
    fetchCount := 3
    markers := ["https://a.test/-0", "https://b.test/-0",
                "https://c.test/-1", "https://c.test/-1"] }

/-- Expected final state of the `webA` crawl with `maxDepth = 5` when the
signal is set right after step 0: the seed task completed and recorded its
page; the child task observed `RUNNING = false` and fetched nothing. -/
def accK : DrainAcc :=
  { data := [("https://a.test/", ⟨"A", ["<h1>A</h1>"]⟩)]
    allTasks := [⟨"https://a.test/", 0⟩, ⟨"https://b.test/", 1⟩]
    fetchCount := 1
    markers := ["https://a.test/-0", "https://b.test/-1"] }

/-! ## Helper lemmas -/

/-- Every path of `__scrape` returns the url-dash-depth marker. -/
theorem scrapeStep_value (web : Web) (maxDepth : Nat) (running : Bool)
    (data : LockingDict) (t : CrawlTask) :
    (scrapeStep web maxDepth running data t).value = marker t := by
  unfold scrapeStep
  split
  · split
    · split
      · rfl
      · split <;> rfl
    · rfl
  · rfl

/-- Any child submitted by one `__scrape` execution has depth exactly the
parent's depth plus one, and is only submitted when the parent's depth is
below the recursion bound. -/
theorem scrapeStep_submitted_mem (web : Web) (maxDepth : Nat) (running : Bool)
    (data : LockingDict) (t : CrawlTask) (c : CrawlTask)
    (hc : c ∈ (scrapeStep web maxDepth running data t).submitted) :
    c.depth = t.depth + 1 ∧ t.depth < maxDepth := by
  unfold scrapeStep at hc
  split at hc
  · split at hc
    · rename_i hcond
      split at hc
      · simp at hc
      · split at hc
        · simp only [List.mem_map] at hc
          obtain ⟨href, _, rfl⟩ := hc
          exact ⟨rfl, hcond.2⟩
        · simp at hc
    · simp at hc
  · simp at hc

/-- The equations of the fuelled drain loop. -/
theorem drainQueue_nil (web : Web) (maxDepth : Nat) (sig : Nat → Bool)
    (fuel step : Nat) (acc : DrainAcc) :
    drainQueue web maxDepth sig fuel step [] acc = some acc := by
  cases fuel <;> rfl

/-- One iteration of the drain loop on a nonempty queue. -/
theorem drainQueue_cons (web : Web) (maxDepth : Nat) (sig : Nat → Bool)
    (fuel step : Nat) (t : CrawlTask) (rest : List CrawlTask) (acc : DrainAcc) :
    drainQueue web maxDepth sig (fuel + 1) step (t :: rest) acc =
      (let r := scrapeStep web maxDepth (sig step) acc.data t
       drainQueue web maxDepth sig fuel (step + 1) (rest ++ r.submitted)
        { data := r.data
          allTasks := acc.allTasks ++ r.submitted
          fetchCount := acc.fetchCount + (if r.fetched then 1 else 0)
          markers := acc.markers ++ [r.value] }) := rfl

/-- Replacing the value stored at a key leaves the key list unchanged. -/
theorem map_replace_keys (d : LockingDict) (k : String) (v : PageResult) :
    (d.map (fun p => if p.1 = k then (k, v) else p)).map Prod.fst =
      d.map Prod.fst := by
  rw [List.map_map]
  apply List.map_congr_left
  intro p _
  by_cases h : p.1 = k
  · simp [h]
  · simp [h]

/-- A key reported absent by `containsKey` is not among the stored keys. -/
theorem containsKey_false_not_mem (d : LockingDict) (k : String)
    (h : d.containsKey k = false) : k ∉ d.map Prod.fst := by
  intro hk
  obtain ⟨p, hp, hpk⟩ := List.mem_map.mp hk
  have : d.containsKey k = true :=
    List.any_eq_true.mpr ⟨p, hp, by simp [hpk]⟩
  rw [h] at this
  exact Bool.false_ne_true this

/-- Dict assignment keeps the stored keys free of duplicates. -/
theorem setItem_nodup (d : LockingDict) (k : String) (v : PageResult)
    (h : (d.map Prod.fst).Nodup) :
    ((d.setItem k v).map Prod.fst).Nodup := by
  unfold LockingDict.setItem
  split
  · rw [map_replace_keys]
    exact h
  · rename_i hc
    rw [List.map_append]
    simp only [List.map_cons, List.map_nil]
    apply List.Nodup.append h (List.nodup_singleton k)
    intro a ha hb
    simp only [List.mem_singleton] at hb
    exact containsKey_false_not_mem d k (Bool.eq_false_iff.mpr hc) (hb ▸ ha)

/-- One `__scrape` execution keeps the stored keys free of duplicates. -/
theorem scrapeStep_data_nodup (web : Web) (maxDepth : Nat) (running : Bool)
    (data : LockingDict) (t : CrawlTask)
    (h : (data.map Prod.fst).Nodup) :
    (((scrapeStep web maxDepth running data t).data).map Prod.fst).Nodup := by
  unfold scrapeStep
  split
  · split
    · split
      · exact h
      · split
        · exact setItem_nodup data t.url _ h
        · exact h
    · exact h
  · exact h

/-- Drain-loop invariant: if every queued task and every already-recorded
task has depth at most `maxDepth`, so does every task recorded by the time
the queue is empty. -/
theorem drainQueue_depth_le (web : Web) (maxDepth : Nat) (sig : Nat → Bool) :
    ∀ fuel step q acc r,
      drainQueue web maxDepth sig fuel step q acc = some r →
      (∀ t ∈ q, t.depth ≤ maxDepth) →
      (∀ t ∈ acc.allTasks, t.depth ≤ maxDepth) →
      ∀ t ∈ r.allTasks, t.depth ≤ maxDepth := by
  intro fuel
  induction fuel with
  | zero =>
    intro step q acc r h hq hacc
    cases q with
    | nil =>
      rw [drainQueue_nil] at h
      cases h
      exact hacc
    | cons t rest => exact absurd h (by simp [drainQueue])
  | succ fuel ih =>
    intro step q acc r h hq hacc
    cases q with
    | nil =>
      rw [drainQueue_nil] at h
      cases h
      exact hacc
    | cons t rest =>
      rw [drainQueue_cons] at h
      refine ih _ _ _ _ h ?_ ?_
      · intro u hu
        rcases List.mem_append.mp hu with hu | hu
        · exact hq u (List.mem_cons_of_mem _ hu)
        · have := scrapeStep_submitted_mem web maxDepth (sig step) acc.data t u hu
          omega
      · intro u hu
        rcases List.mem_append.mp hu with hu | hu
        · exact hacc u hu
        · have := scrapeStep_submitted_mem web maxDepth (sig step) acc.data t u hu
          omega

/-- Drain-loop invariant: key uniqueness of `self.data` is preserved. -/
theorem drainQueue_data_nodup (web : Web) (maxDepth : Nat) (sig : Nat → Bool) :
    ∀ fuel step q acc r,
      drainQueue web maxDepth sig fuel step q acc = some r →
      (acc.data.map Prod.fst).Nodup →
      (r.data.map Prod.fst).Nodup := by
  intro fuel
  induction fuel with
  | zero =>
    intro step q acc r h hacc
    cases q with
    | nil =>
      rw [drainQueue_nil] at h
      cases h
      exact hacc
    | cons t rest => exact absurd h (by simp [drainQueue])
  | succ fuel ih =>
    intro step q acc r h hacc
    cases q with
    | nil =>
      rw [drainQueue_nil] at h
      cases h
      exact hacc
    | cons t rest =>
      rw [drainQueue_cons] at h
      exact ih _ _ _ _ h
        (scrapeStep_data_nodup web maxDepth (sig step) acc.data t hacc)

/-- Every page of the web respects the link bound. -/
theorem mem_linkBound (web : Web) :
    ∀ p ∈ web, p.2.links.length ≤ linkBound web := by
  induction web with
  | nil =>
    intro p hp
    cases hp
  | cons q rest ih =>
    intro p hp
    rcases List.mem_cons.mp hp with h | h
    · rw [h]
      exact le_max_left _ _
    · exact le_trans (ih p h) (le_max_right _ _)

/-- A successfully fetched page has at most `linkBound web` links. -/
theorem requests_get_links_le (web : Web) (url : String) (r : Fetched)
    (h : requests_get web url = some r) : r.links.length ≤ linkBound web := by
  unfold requests_get at h
  obtain ⟨p, hp, hpr⟩ := Option.map_eq_some'.mp h
  have hmem : p ∈ web := List.mem_of_find?_eq_some hp
  have hb := mem_linkBound web p hmem
  have hpr' : p.2 = r := hpr
  rw [hpr'] at hb
  exact hb

/-- Sum of a constant mapped over a list. -/
theorem sum_map_const {α : Type} (l : List α) (c : Nat) :
    (l.map (fun _ => c)).sum = l.length * c := by
  induction l with
  | nil => simp
  | cons a l ih => simp [ih, Nat.succ_mul, Nat.add_comm]

/-- The queue measure distributes over cons. -/
theorem queueWeight_cons (B D : Nat) (t : CrawlTask) (q : List CrawlTask) :
    queueWeight B D (t :: q) = taskWeight B D t + queueWeight B D q := by
  simp [queueWeight]

/-- The queue measure distributes over append. -/
theorem queueWeight_append (B D : Nat) (q1 q2 : List CrawlTask) :
    queueWeight B D (q1 ++ q2) = queueWeight B D q1 + queueWeight B D q2 := by
  simp [queueWeight]

/-- Key decrease: the tasks submitted by one `__scrape` execution weigh
strictly less than the task that submitted them, because children are only
produced below `maxDepth` and number at most `linkBound web`. -/
theorem scrapeStep_weight (web : Web) (maxDepth : Nat) (running : Bool)
    (data : LockingDict) (t : CrawlTask) :
    queueWeight (linkBound web + 1) maxDepth
        ((scrapeStep web maxDepth running data t).submitted) <
      taskWeight (linkBound web + 1) maxDepth t := by
  have hpos : 0 < (linkBound web + 1) ^ (maxDepth - t.depth) :=
    Nat.pow_pos (Nat.succ_pos _)
  unfold scrapeStep
  split
  · split
    · rename_i hcond
      split
      · simp [queueWeight, taskWeight]
      · rename_i r hr
        split
        · have hlen : r.links.length ≤ linkBound web :=
            requests_get_links_le web t.url r hr
          have hsub : maxDepth - t.depth = (maxDepth - (t.depth + 1)) + 1 := by
            omega
          simp only [queueWeight, taskWeight, List.map_map, Function.comp_def]
          rw [sum_map_const r.links
              ((linkBound web + 1) ^ (maxDepth - (t.depth + 1))),
            hsub, pow_succ,
            Nat.mul_comm ((linkBound web + 1) ^ (maxDepth - (t.depth + 1)))
              (linkBound web + 1)]
          have hx : 0 < (linkBound web + 1) ^ (maxDepth - (t.depth + 1)) :=
            Nat.pow_pos (Nat.succ_pos _)
          exact mul_lt_mul_of_pos_right (by omega) hx
        · simp [queueWeight, taskWeight]
    · simp [queueWeight, taskWeight]
  · simp [queueWeight, taskWeight]

/-- With fuel at least the initial queue measure, the drain loop reaches
the empty queue. -/
theorem drainQueue_total (web : Web) (maxDepth : Nat) (sig : Nat → Bool) :
    ∀ fuel step q acc,
      queueWeight (linkBound web + 1) maxDepth q ≤ fuel →
      (drainQueue web maxDepth sig fuel step q acc).isSome = true := by
  intro fuel
  induction fuel with
  | zero =>
    intro step q acc hw
    cases q with
    | nil =>
      rw [drainQueue_nil]
      rfl
    | cons t rest =>
      exfalso
      have h1 : 0 < taskWeight (linkBound web + 1) maxDepth t :=
        Nat.pow_pos (Nat.succ_pos _)
      rw [queueWeight_cons] at hw
      omega
  | succ fuel ih =>
    intro step q acc hw
    cases q with
    | nil =>
      rw [drainQueue_nil]
      rfl
    | cons t rest =>
      rw [drainQueue_cons]
      apply ih
      have hstep := scrapeStep_weight web maxDepth (sig step) acc.data t
      rw [queueWeight_cons] at hw
      rw [queueWeight_append]
      omega

/-- Seed tasks are all at depth 0. -/
theorem seedTasks_depth (seeds : List String) :
    ∀ t ∈ seedTasks seeds, t.depth = 0 := by
  intro t ht
  obtain ⟨u, _, rfl⟩ := List.mem_map.mp ht
  rfl

/-- Once the `RUNNING` flag reads `false`, it reads `false` at every later
step: `kill_threads` only ever writes `false` and nothing writes `true`. -/
theorem runningAt_mono (kill : Nat → Bool) (n : Nat)
    (h : runningAt kill n = false) :
    ∀ m, n ≤ m → runningAt kill m = false := by
  intro m hm
  induction m with
  | zero =>
    have hn : n = 0 := Nat.le_zero.mp hm
    rw [← hn]
    exact h
  | succ m ih =>
    rcases Nat.lt_or_ge n (m + 1) with hlt | hge
    · have hm' := ih (Nat.lt_succ_iff.mp hlt)
      unfold runningAt
      cases hk : kill m
      · simpa [hk] using hm'
      · simp [hk, kill_threads]
    · have hn : n = m + 1 := Nat.le_antisymm hm hge
      rw [← hn]
      exact h

/-- Any serialized sequence of dict insertions keeps the keys unique. -/
theorem foldl_setItem_nodup (ops : List (String × PageResult)) :
    ∀ d : LockingDict, (d.map Prod.fst).Nodup →
      ((ops.foldl (fun acc p => LockingDict.setItem acc p.1 p.2) d).map Prod.fst).Nodup := by
  induction ops with
  | nil =>
    intro d hd
    exact hd
  | cons p ops ih =>
    intro d hd
    exact ih _ (setItem_nodup d p.1 p.2 hd)

/-! ## Claim theorems -/

/-- Claim C1, counterexample: in the crawl of `webA` from the single seed
`https://a.test/` with max recursion depth 1, a task of depth 1 — not
strictly below the configured bound — is put on the pending queue, so the
claim that no task with `depth ≥ maxDepth` is ever submitted is false. -/
theorem scrape_queues_task_at_maxDepth :
    ¬ (∀ t ∈ ((scrape webA 1 (fun _ => true) ["https://a.test/"] 10).getD
        ⟨[], [], 0, []⟩).allTasks, t.depth < 1) := by
  decide

/-- Claim C1 (amended): every task ever put on the pending queue of a crawl
run has depth at most `maxDepth`; children of a parent at depth
`maxDepth - 1` are submitted with depth exactly `maxDepth` but do no work,
and no task ever exceeds `maxDepth`. -/
theorem scrape_allTasks_depth_le (web : Web) (maxDepth : Nat)
    (sig : Nat → Bool) (seeds : List String) (fuel : Nat) (r : DrainAcc)
    (h : scrape web maxDepth sig seeds fuel = some r) :
    ∀ t ∈ r.allTasks, t.depth ≤ maxDepth := by
  refine drainQueue_depth_le web maxDepth sig fuel 0 (seedTasks seeds) _ r h ?_ ?_
  · intro t ht
    rw [seedTasks_depth seeds t ht]
    exact Nat.zero_le _
  · intro t ht
    rw [seedTasks_depth seeds t ht]
    exact Nat.zero_le _

/-- Witness for the amended C1 at a concrete crawl. -/
theorem scrape_allTasks_depth_le_w :
    scrape webA 1 (fun _ => true) ["https://a.test/"] 10 = some accA ∧
    (⟨"https://b.test/", 1⟩ : CrawlTask) ∈ accA.allTasks ∧
    CrawlTask.depth ⟨"https://b.test/", 1⟩ ≤ 1 :=
  ⟨by decide, by decide,
   scrape_allTasks_depth_le webA 1 (fun _ => true) ["https://a.test/"] 10 accA
     (by decide) ⟨"https://b.test/", 1⟩ (by decide)⟩

/-- Claim C2 (code bug at line 118): resolving the root-relative href
`/about` on the page `https://a.test/x/y` yields `https://a.test//about`,
not the `https://a.test/about` the documentation expects — the code builds
`scheme + "://" + netloc + "/" + href` although `href` already begins with
`/`, doubling the slash; hrefs not beginning with `/` do pass through
unchanged. -/
theorem resolveHref_doubles_slash :
    resolveHref "https://a.test/x/y" "/about" = "https://a.test//about" ∧
    "https://a.test//about" ≠ "https://a.test/about" ∧
    resolveHref "https://a.test/x/y" "https://b.test/" = "https://b.test/" := by
  decide

/-- Claim C3: for every finite web, every depth bound, every signal
schedule and every seed list, the crawl terminates — some finite fuel lets
the drain loop reach the empty pending queue. -/
theorem scrape_terminates (web : Web) (maxDepth : Nat) (sig : Nat → Bool)
    (seeds : List String) :
    ∃ fuel, (scrape web maxDepth sig seeds fuel).isSome = true :=
  ⟨queueWeight (linkBound web + 1) maxDepth (seedTasks seeds),
   drainQueue_total web maxDepth sig _ 0 _ _ (le_refl _)⟩

/-- Claim C4: with the cancellation signal not set, a task whose depth has
reached `maxDepth` or whose URL is already in the visited store terminates
immediately with its normal completion marker — no fetch, no store change,
no child tasks; the same return value as every other path, a skip rather
than an error. -/
theorem scrapeStep_skip (web : Web) (maxDepth : Nat) (data : LockingDict)
    (t : CrawlTask)
    (h : maxDepth ≤ t.depth ∨ data.containsKey t.url = true) :
    scrapeStep web maxDepth true data t =
      { data := data, submitted := [], fetched := false, value := marker t } := by
  have hneg : ¬ (data.containsKey t.url = false ∧ t.depth < maxDepth) := by
    rcases h with h | h
    · intro hc
      exact absurd hc.2 (Nat.not_lt.mpr h)
    · intro hc
      rw [h] at hc
      exact Bool.noConfusion hc.1
  simp [scrapeStep, hneg]

/-- Witness for C4: revisiting an already-stored URL is skipped. -/
theorem scrapeStep_skip_w :
    LockingDict.containsKey dataA "https://a.test/" = true ∧
    scrapeStep webA 5 true dataA ⟨"https://a.test/", 0⟩ =
      { data := dataA, submitted := [], fetched := false,
        value := "https://a.test/-0" } :=
  ⟨by decide,
   (scrapeStep_skip webA 5 dataA ⟨"https://a.test/", 0⟩
     (Or.inr (by decide))).trans (by decide)⟩

/-- Claim C5: a task whose fetch fails — a raised exception (`none`) or a
non-success status (`r.ok = false`) — records nothing, schedules no
children and still returns its `url-depth` completion marker; and in
scenario B (one seed, network error, `maxDepth = 5`) the store stays
empty, exactly one fetch was attempted, the seed's marker is still
produced and the final output is the empty mapping. -/
theorem scrapeStep_fetch_failure (web : Web) (maxDepth : Nat)
    (data : LockingDict) (t : CrawlTask)
    (hskip : data.containsKey t.url = false) (hdepth : t.depth < maxDepth)
    (hfail : requests_get web t.url = none ∨
      ∃ r, requests_get web t.url = some r ∧ r.ok = false) :
    scrapeStep web maxDepth true data t =
      { data := data, submitted := [], fetched := true, value := marker t } ∧
    scrape [] 5 (fun _ => true) ["https://a.test/"] 2 =
      some { data := [], allTasks := [⟨"https://a.test/", 0⟩],
             fetchCount := 1, markers := ["https://a.test/-0"] } ∧
    scrapeOut [] 5 (fun _ => true) ["https://a.test/"] 2 true = .ok [] := by
  refine ⟨?_, by decide, by rfl⟩
  rcases hfail with hf | ⟨r, hr, hok⟩
  · simp [scrapeStep, hskip, hdepth, hf]
  · simp [scrapeStep, hskip, hdepth, hr, hok]

/-- Witness for C5: the seed fetch of an empty web raises, and the task
ends with the marker and no effects. -/
theorem scrapeStep_fetch_failure_w :
    LockingDict.containsKey [] "https://a.test/" = false ∧
    (0 : Nat) < 5 ∧
    requests_get [] "https://a.test/" = none ∧
    scrapeStep [] 5 true [] ⟨"https://a.test/", 0⟩ =
      { data := [], submitted := [], fetched := true,
        value := "https://a.test/-0" } :=
  ⟨by decide, by decide, by decide,
   ((scrapeStep_fetch_failure [] 5 [] ⟨"https://a.test/", 0⟩ (by decide)
      (by decide) (Or.inl (by decide))).1).trans (by decide)⟩

/-- Claim C6: the visited store never holds two results for the same URL —
any serialized sequence of `LockingDict.__setitem__` operations keeps the
key list duplicate-free (a repeated key replaces the whole entry rather
than adding or corrupting one), and the store at the end of any crawl run
has duplicate-free keys. -/
theorem visited_keys_unique (ops : List (String × PageResult))
    (d : LockingDict) (hd : (d.map Prod.fst).Nodup)
    (web : Web) (maxDepth : Nat) (sig : Nat → Bool) (seeds : List String)
    (fuel : Nat) (r : DrainAcc)
    (hr : scrape web maxDepth sig seeds fuel = some r) :
    ((ops.foldl (fun acc p => LockingDict.setItem acc p.1 p.2) d).map Prod.fst).Nodup ∧
    (r.data.map Prod.fst).Nodup :=
  ⟨foldl_setItem_nodup ops d hd,
   drainQueue_data_nodup web maxDepth sig fuel 0 _ _ r hr (by simp)⟩

/-- Witness for C6 at scenario C: two seeds both queue `https://c.test/`,
and both an explicit duplicate-key insertion sequence and the crawl's final
store keep one entry per URL. -/
theorem visited_keys_unique_w :
    scrape webC 5 (fun _ => true) ["https://a.test/", "https://b.test/"] 10 =
      some accC ∧
    ((([(("x" : String), (⟨"1", []⟩ : PageResult)),
        (("x" : String), (⟨"2", []⟩ : PageResult))].foldl
          (fun acc p => LockingDict.setItem acc p.1 p.2) ([] : LockingDict)).map
            Prod.fst).Nodup ∧
      (accC.data.map Prod.fst).Nodup) :=
  ⟨by decide,
   visited_keys_unique [("x", ⟨"1", []⟩), ("x", ⟨"2", []⟩)] [] (by decide)
     webC 5 (fun _ => true) ["https://a.test/", "https://b.test/"] 10 accC
     (by decide)⟩

/-- Claim C7: cancellation is cooperative and irreversible — a task that
observes `RUNNING = false` initiates no fetch, schedules no children and
leaves the store untouched while still returning its completion marker;
once the flag reads `false` it reads `false` at every later step
(`kill_threads` only writes `false`, nothing writes `true` back); and a
task that passed its check before the signal was set still completes and
its inserted result stays in the store. -/
theorem cancellation_cooperative (web : Web) (maxDepth : Nat)
    (data : LockingDict) (t : CrawlTask) (kill : Nat → Bool) (n m : Nat)
    (hn : runningAt kill n = false) (hnm : n ≤ m) :
    scrapeStep web maxDepth false data t =
      { data := data, submitted := [], fetched := false, value := marker t } ∧
    runningAt kill m = false ∧
    scrape webA 5 (fun s => s == 0) ["https://a.test/"] 10 = some accK := by
  refine ⟨rfl, runningAt_mono kill n hn m hnm, by decide⟩

/-- Witness for C7: the flag killed at step 1 reads `false` at step 2 and
still at step 5. -/
theorem cancellation_cooperative_w :
    runningAt (fun s => s == 1) 2 = false ∧
    (2 : Nat) ≤ 5 ∧
    (scrapeStep webA 5 false dataA ⟨"https://b.test/", 1⟩ =
      { data := dataA, submitted := [], fetched := false,
        value := "https://b.test/-1" } ∧
     runningAt (fun s => s == 1) 5 = false) :=
  ⟨by decide, by decide, by
    have h := cancellation_cooperative webA 5 dataA ⟨"https://b.test/", 1⟩
      (fun s => s == 1) 2 5 (by decide) (by decide)
    exact ⟨h.1.trans (by decide), h.2.1⟩⟩

/-- Claim C8: every child task submitted by a running task execution has
depth exactly the parent's depth plus one. -/
theorem child_depth_succ (web : Web) (maxDepth : Nat) (running : Bool)
    (data : LockingDict) (t c : CrawlTask)
    (hc : c ∈ (scrapeStep web maxDepth running data t).submitted) :
    c.depth = t.depth + 1 :=
  (scrapeStep_submitted_mem web maxDepth running data t c hc).1

/-- Witness for C8: the child queued by the `https://a.test/` seed task. -/
theorem child_depth_succ_w :
    (⟨"https://b.test/", 1⟩ : CrawlTask) ∈
      (scrapeStep webA 1 true [] ⟨"https://a.test/", 0⟩).submitted ∧
    CrawlTask.depth ⟨"https://b.test/", 1⟩ =
      CrawlTask.depth ⟨"https://a.test/", 0⟩ + 1 :=
  ⟨by decide,
   child_depth_succ webA 1 true [] ⟨"https://a.test/", 0⟩
     ⟨"https://b.test/", 1⟩ (by decide)⟩

/-- Claim C9: whenever the drain completes — for every web, depth bound,
signal schedule and seed list, so regardless of cancellation or per-task
fetch failures — the sink receives exactly the visited store's contents,
and the final write is the run's only fallible operation: with a working
sink the run succeeds carrying the store, with a failing sink it is exactly
the `IOError`. -/
theorem output_always_written (web : Web) (maxDepth : Nat)
    (sig : Nat → Bool) (seeds : List String) (fuel : Nat) (r : DrainAcc)
    (h : scrape web maxDepth sig seeds fuel = some r) :
    scrapeOut web maxDepth sig seeds fuel true = .ok r.data ∧
    scrapeOut web maxDepth sig seeds fuel false = .error "IOError" := by
  constructor <;> simp [scrapeOut, h]

/-- Witness for C9 at the concrete `webA` crawl. -/
theorem output_always_written_w :
    scrape webA 1 (fun _ => true) ["https://a.test/"] 10 = some accA ∧
    (scrapeOut webA 1 (fun _ => true) ["https://a.test/"] 10 true =
        .ok accA.data ∧
      scrapeOut webA 1 (fun _ => true) ["https://a.test/"] 10 false =
        .error "IOError") :=
  ⟨by decide,
   output_always_written webA 1 (fun _ => true) ["https://a.test/"] 10 accA
     (by decide)⟩

/-- Claim C10: with an empty list of start URLs the drain loop terminates
at once with no fetch at all, and the sink still receives the empty
mapping without any error at the public interface. -/
theorem scrape_no_seeds (web : Web) (maxDepth : Nat) (sig : Nat → Bool)
    (fuel : Nat) :
    scrape web maxDepth sig [] fuel =
      some { data := [], allTasks := [], fetchCount := 0, markers := [] } ∧
    scrapeOut web maxDepth sig [] fuel true = .ok [] := by
  have h : scrape web maxDepth sig [] fuel =
      some { data := [], allTasks := [], fetchCount := 0, markers := [] } :=
    drainQueue_nil web maxDepth sig fuel 0
      { data := [], allTasks := [], fetchCount := 0, markers := [] }
  exact ⟨h, by simp [scrapeOut, h]⟩
